import Mathlib

/-!
Verification of the icris-ocr document-OCR pipeline.

Shallow embedding of the pure/algorithmic parts of the repository:
  * `string_processing.py` (field normalization: clean_number, clean_hkid,
    clean_single_character),
  * `ocr_tools.py` (calculate_angle, detect_boxes control flow, get_boxes_info,
    ocr_box result handling, the segmented-cell splitter geometry of
    ocr_segmented_box),
  * `document_layouts.py` (the box-indexing logic of the AnnualReturn page
    constructors).

Image-processing primitives (OpenCV morphology, Hough transform, Tesseract)
are external collaborators; they are abstracted as parameters, while every
branch, index access and string transformation of the repository's own code
is embedded faithfully.  Python exceptions are modelled with `Except PyErr`.
-/

namespace IcrisOcr

/-- Python exception kinds that the embedded code can raise. -/
inductive PyErr where
  | indexError
  | valueError
  | assertionError
  | nameError
  | typeError
  | recursionError
  deriving Repr, DecidableEq

/-- Result-kind test for the embedded Python functions. -/
def isOkE {α : Type} : Except PyErr α → Bool
  | .ok _ => true
  | .error _ => false

/-! ## string_processing.py -/

/-- Embedding of the character class `[\[\]Iil!|]` of `clean_number`
(string_processing.py line 100): each such character is replaced by `'1'`. -/
def confusable1 (c : Char) : Char :=
  if c = '[' ∨ c = ']' ∨ c = 'I' ∨ c = 'i' ∨ c = 'l' ∨ c = '!' ∨ c = '|' then '1' else c

/-- Embedding of `re.sub` with a two-character literal pattern, as in
`re.sub(r'oO', '0', s)` and `re.sub(r'sS', '5', s)` (string_processing.py
lines 100 and 137): the pattern matches only the exact two-character
sequence `a` followed by `b`; python replaces non-overlapping occurrences
left to right by the single character `c`. -/
def subSeq2 (a b c : Char) : List Char → List Char
  | [] => []
  | [x] => [x]
  | x :: y :: rest =>
    if x = a ∧ y = b then c :: subSeq2 a b c rest
    else x :: subSeq2 a b c (y :: rest)

/-- Membership test for the regex class `[A-Z0-9]` (string_processing.py
line 123 keeps exactly these characters). -/
def isUpperOrDigit (c : Char) : Bool :=
  ('A' ≤ c ∧ c ≤ 'Z') ∨ ('0' ≤ c ∧ c ≤ '9')

/-- ASCII digit test for the regex `[^0-9]` removal. -/
def isDigitChar (c : Char) : Bool := '0' ≤ c ∧ c ≤ '9'

/-- The confusable-substitution chain of `clean_number`
(string_processing.py line 100), on character lists:
`re.sub(r'sS', '5', re.sub(r'oO', '0', re.sub(r'[\[\]Iil!|]', '1', string)))`. -/
def confusableChain (l : List Char) : List Char :=
  subSeq2 's' 'S' '5' (subSeq2 'o' 'O' '0' (l.map confusable1))

/-- Embedding of `clean_number` (string_processing.py lines 90-117) on
character lists.  `string[:string.index('.')]` keeps the prefix before the
first `'.'` (the whole string when there is none, via the bare `except`);
then the confusable chain runs, then all non-digits are removed; the
`contact` branch strips a leading 852/0852 prefix and requires 8 digits;
the `number` branch removes non-digits again (a no-op); the final guard
maps `''` and `'()'` to the sentinel `None`. -/
def cleanedBase (l : List Char) : List Char :=
  (confusableChain (l.takeWhile (fun c => c ≠ '.'))).filter isDigitChar

/-- The `contact` branch of `clean_number` (string_processing.py lines
103-112): strip a leading `852`/`0852` country prefix, then keep exactly
8 digits or reject. -/
def contactAdjust (cleaned : List Char) : List Char :=
  let cleaned :=
    if cleaned.take 3 = ['8', '5', '2'] then cleaned.drop 3
    else if cleaned.take 4 = ['0', '8', '5', '2'] then cleaned.drop 4
    else cleaned
  if 8 ≤ cleaned.length then cleaned.take 8 else "None".data

/-- The final guard of `clean_number` (string_processing.py line 117):
`''` and `'()'` become the sentinel `None`. -/
def finalGuard (cleaned : List Char) : List Char :=
  if cleaned ≠ [] ∧ cleaned ≠ ['(', ')'] then cleaned else "None".data

def clean_number_chars (l : List Char) (data_type : String) : List Char :=
  finalGuard
    (if data_type = "contact" then contactAdjust (cleanedBase l)
     else if data_type = "number" then (cleanedBase l).filter isDigitChar
     else cleanedBase l)

/-- Embedding of `clean_number` (string_processing.py lines 90-117). -/
def clean_number (s : String) (data_type : String) : String :=
  String.mk (clean_number_chars s.data data_type)

/-- Embedding of `clean_single_character` (string_processing.py lines
131-139).  For any `data_type` other than `letter` and `number` the local
`cleaned` is never assigned and the `return` raises `NameError`. -/
def clean_single_character (s : String) (data_type : String) : Except PyErr String :=
  if data_type = "letter" then
    .ok (String.mk (((s.trim.data.filter (fun c => 'A' ≤ c ∧ c ≤ 'Z'))).take 1))
  else if data_type = "number" then
    .ok (String.mk (((confusableChain s.data).filter isDigitChar).take 1))
  else .error .nameError

/-- Python `list.insert(-1, c)`: insert before the last element (at index
`len-1`, clamped to `0` for the empty list). -/
def pyInsertPenult (l : List Char) (c : Char) : List Char :=
  l.take (l.length - 1) ++ c :: l.drop (l.length - 1)

/-- Embedding of `clean_hkid` (string_processing.py lines 119-129): strip
to `[A-Z0-9]`, insert `'('` before the last character, append `')'`, and
return the result when its length exceeds 7, the sentinel `None` otherwise. -/
def hkidFormatted (s : String) : List Char :=
  pyInsertPenult (s.data.filter isUpperOrDigit) '(' ++ [')']

def clean_hkid (s : String) : String :=
  if 7 < (hkidFormatted s).length then String.mk (hkidFormatted s) else "None"

/-- Modelled from the spec (for comparison only, claim C3): the numeric
confusable correction as the specification words it — each occurrence of
`O`/`o` becomes `0`, each of `I i l ! | [ ]` becomes `1`, each of `S`/`s`
becomes `5`, and then all remaining non-digits are removed. -/
def clean_number_spec (s : String) : String :=
  let sub := fun c =>
    if c = 'O' ∨ c = 'o' then '0'
    else if c = 'I' ∨ c = 'i' ∨ c = 'l' ∨ c = '!' ∨ c = '|' ∨ c = '[' ∨ c = ']' then '1'
    else if c = 'S' ∨ c = 's' then '5'
    else c
  String.mk ((s.data.map sub).filter isDigitChar)

/-! ### Helper lemmas for the normalizer -/

theorem subSeq2_eq_self {a b c : Char} :
    ∀ l : List Char, (∀ x ∈ l, x ≠ a) → subSeq2 a b c l = l
  | [], _ => rfl
  | [_], _ => rfl
  | x :: y :: rest, h => by
    have hx : ¬(x = a ∧ y = b) := fun hc => (h x (by simp)) hc.1
    have hrest : ∀ z ∈ y :: rest, z ≠ a := fun z hz => h z (List.mem_cons_of_mem _ hz)
    simp only [subSeq2]
    rw [if_neg hx]
    exact congrArg (x :: ·) (subSeq2_eq_self (y :: rest) hrest)

theorem confusableChain_of_digits (l : List Char) (hd : ∀ x ∈ l, isDigitChar x) :
    confusableChain l = l := by
  have hmap : l.map confusable1 = l := by
    induction l with
    | nil => rfl
    | cons x xs ih =>
      have hx := hd x (by simp)
      have : confusable1 x = x := by
        unfold confusable1
        rw [if_neg]
        intro hmem
        simp only [isDigitChar, decide_eq_true_eq] at hx
        rcases hmem with h | h | h | h | h | h | h <;> subst h <;> revert hx <;> decide
      simp only [List.map_cons, this, List.cons.injEq, true_and]
      exact ih (fun y hy => hd y (List.mem_cons_of_mem _ hy))
  rw [confusableChain, hmap]
  rw [subSeq2_eq_self l (fun x hx h => by
    have := hd x hx; subst h; revert this; decide)]
  exact subSeq2_eq_self l (fun x hx h => by
    have := hd x hx; subst h; revert this; decide)

theorem clean_number_chars_number (l : List Char) :
    clean_number_chars l "number" = finalGuard ((cleanedBase l).filter isDigitChar) := by
  rw [clean_number_chars, if_neg (by decide), if_pos rfl]

theorem cleanedBase_of_digits (l : List Char) (hd : ∀ x ∈ l, isDigitChar x) :
    cleanedBase l = l := by
  have htake : l.takeWhile (fun c => c ≠ '.') = l := by
    rw [List.takeWhile_eq_self_iff]
    intro x hx
    have := hd x hx
    simp only [isDigitChar, decide_eq_true_eq] at this
    simp only [ne_eq, decide_eq_true_eq]
    intro h; subst h; revert this; decide
  rw [cleanedBase, htake, confusableChain_of_digits l hd]
  exact List.filter_eq_self.mpr hd

theorem clean_number_chars_fix (l : List Char) (hne : l ≠ [])
    (hd : ∀ x ∈ l, isDigitChar x) : clean_number_chars l "number" = l := by
  have hfil : l.filter isDigitChar = l := List.filter_eq_self.mpr hd
  have hpar : l ≠ ['(', ')'] := by
    intro h
    have := hd '(' (by rw [h]; simp)
    revert this; decide
  rw [clean_number_chars_number, cleanedBase_of_digits l hd, hfil, finalGuard,
    if_pos ⟨hne, hpar⟩]

theorem clean_number_chars_shape (l : List Char) :
    clean_number_chars l "number" = "None".data ∨
      (clean_number_chars l "number" ≠ [] ∧
        ∀ x ∈ clean_number_chars l "number", isDigitChar x) := by
  rw [clean_number_chars_number, finalGuard]
  by_cases h : (cleanedBase l).filter isDigitChar ≠ [] ∧
      (cleanedBase l).filter isDigitChar ≠ ['(', ')']
  · right
    rw [if_pos h]
    exact ⟨h.1, fun x hx => List.of_mem_filter hx⟩
  · left
    rw [if_neg h]

/-- Claim C3 (code bug): the confusable substitutions in `clean_number`
use the regex literals `'oO'` and `'sS'` rather than the character classes
`[oO]` and `[sS]` (string_processing.py line 100), so a lone `O` or `s` is
not corrected at all: cleaning the string `O` as a numeric field yields the
sentinel `None`, while the specified substitution `O → 0` would yield `0`
(the adjacent class `[\[\]Iil!|] → 1` on the same source line shows the
intended form); likewise `s` yields `None` instead of `5`, while the
two-character sequence `oO` collapses to the single digit `0`. -/
theorem clean_number_confusable_code_bug :
    clean_number "O" "number" = "None" ∧ clean_number_spec "O" = "0" ∧
      clean_number "s" "number" = "None" ∧ clean_number_spec "s" = "5" ∧
      clean_number "oO" "number" = "0" ∧ clean_number "I0I" "number" = "101" := by
  refine ⟨?_, ?_, ?_, ?_, ?_, ?_⟩ <;> decide

/-- Claim C9 (confirmed): numeric confusable-cleaning is idempotent — the
cleaner applied to its own output returns that output unchanged, a nonempty
already-clean digit string is returned unchanged, and cleaning `I0I` as a
numeric field yields `101`. -/
theorem clean_number_idempotent :
    (∀ s : String, clean_number (clean_number s "number") "number"
        = clean_number s "number") ∧
      (∀ s : String, s.data ≠ [] → (∀ x ∈ s.data, isDigitChar x) →
        clean_number s "number" = s) ∧
      clean_number "I0I" "number" = "101" := by
  have hdata : ∀ l : List Char, (String.mk l).data = l := fun _ => rfl
  refine ⟨?_, ?_, by decide⟩
  · intro s
    rcases clean_number_chars_shape s.data with h | ⟨hne, hd⟩
    · simp only [clean_number, h, hdata]
      decide
    · simp only [clean_number, hdata]
      rw [clean_number_chars_fix _ hne hd]
  · intro s hne hd
    show String.mk (clean_number_chars s.data "number") = s
    rw [clean_number_chars_fix s.data hne hd]

/-- Witness for C9: the already-clean digit string `123` is a fixpoint of
the numeric cleaner, obtained from the theorem at a concrete input. -/
theorem clean_number_idempotent_witness :
    clean_number (clean_number "123" "number") "number" = clean_number "123" "number" ∧
      clean_number "123" "number" = "123" :=
  ⟨clean_number_idempotent.1 "123",
    clean_number_idempotent.2.1 "123" (by decide) (by decide)⟩

/-! ### Claim C8: clean_hkid -/

theorem pyInsertPenult_length (l : List Char) (c : Char) :
    (pyInsertPenult l c).length = l.length + 1 := by
  simp only [pyInsertPenult, List.length_append, List.length_take, List.length_cons,
    List.length_drop]
  omega

/-- Claim C8 (counterexample): the input `A12345` has only 6 characters
surviving the `[A-Z0-9]` stripping — fewer than 7 — yet `clean_hkid`
returns the formatted value `A1234(5)`, not the sentinel `None`, because
the rejection test is on the final length (`≤ 7`, i.e. fewer than 6
surviving characters), not on 7 surviving characters. -/
theorem clean_hkid_six_char_counterexample :
    ("A12345".data.filter isUpperOrDigit).length = 6 ∧
      clean_hkid "A12345" = "A1234(5)" ∧ clean_hkid "A12345" ≠ "None" := by
  refine ⟨?_, ?_, ?_⟩ <;> decide

/-- Claim C8 (amended): identity-number cleaning strips the input to
uppercase letters and digits, inserts `(` before the last remaining
character and appends `)`, and returns the sentinel `None` exactly when
the resulting string's length is at most 7 — equivalently, exactly when
fewer than 6 (not 7) characters survive the stripping; with at least 6
surviving characters the formatted string (length at least 8) is
returned. -/
theorem hkidFormatted_length (s : String) :
    (hkidFormatted s).length = (s.data.filter isUpperOrDigit).length + 2 := by
  simp [hkidFormatted, pyInsertPenult_length]

theorem clean_hkid_amended (s : String) :
    (clean_hkid s = "None" ↔ (s.data.filter isUpperOrDigit).length < 6) ∧
      (6 ≤ (s.data.filter isUpperOrDigit).length →
        (clean_hkid s).data = hkidFormatted s ∧ 8 ≤ (clean_hkid s).length) := by
  have hlen := hkidFormatted_length s
  constructor
  · constructor
    · intro h
      by_contra hge
      push_neg at hge
      have h7 : 7 < (hkidFormatted s).length := by omega
      rw [clean_hkid, if_pos h7] at h
      have hdd : hkidFormatted s = "None".data := congrArg String.data h
      have h4 : ("None".data).length = 4 := by decide
      rw [hdd, h4] at hlen
      omega
    · intro hlt
      rw [clean_hkid, if_neg (by omega)]
  · intro hge
    have h7 : 7 < (hkidFormatted s).length := by omega
    rw [clean_hkid, if_pos h7]
    refine ⟨rfl, ?_⟩
    show 8 ≤ (hkidFormatted s).length
    omega

/-- Witness for C8: applying the amended theorem at `A123456(7)` (8
surviving characters) yields the formatted, length-10 value. -/
theorem clean_hkid_amended_witness :
    clean_hkid "A123456(7)" ≠ "None" ∧ 8 ≤ (clean_hkid "A123456(7)").length :=
  ⟨fun h => absurd ((clean_hkid_amended "A123456(7)").1.mp h) (by decide),
    ((clean_hkid_amended "A123456(7)").2 (by decide)).2⟩

/-! ## ocr_tools.py: calculate_angle (skew estimation)

The Hough transform returns either `None` (no segments) or a list of
segments; the per-segment `math.degrees(math.atan2(y2-y1, x2-x1))` values
are taken as the input, modelled over `ℚ`.  A `None` result makes the
`for` loop raise `TypeError`, which the bare `except` turns into the
estimate `0`. -/

/-- The per-segment angle fold of `calculate_angle` (ocr_tools.py lines
83-86), applied sequentially: first `if angle > 30: angle = 90 - angle`,
then `if angle < -30: angle = angle + 90` on the updated value. -/
def foldAngle (a : ℚ) : ℚ :=
  let a := if a > 30 then 90 - a else a
  if a < -30 then a + 90 else a

/-- The discard test of ocr_tools.py line 82: keep a segment's angle when
it is neither exactly `0` nor exactly `-90`. -/
def keepAngle (a : ℚ) : Bool := a ≠ 0 ∧ a ≠ -90

/-- The surviving folded angles accumulated by the loop of
`calculate_angle` (ocr_tools.py lines 79-87). -/
def survivors (angles : List ℚ) : List ℚ :=
  (angles.filter keepAngle).map foldAngle

/-- Embedding of `calculate_angle` (ocr_tools.py lines 73-96), given the
segment angles computed from the Hough lines (`none` when `HoughLinesP`
returned `None`, in which case iteration raises and the bare `except`
yields `0`; the mean is `np.mean`). -/
def calculate_angle (lines : Option (List ℚ)) : ℚ :=
  match lines with
  | none => 0
  | some angles =>
    let s := survivors angles
    if s.length ≠ 0 then s.sum / s.length else 0

/-- Modelled from the spec (for comparison only, claim C6): the discard
test as the amended claim words it. -/
def keepAngleSpec (a : ℚ) : Bool := ¬(a = 0 ∨ a = -90)

/-- Modelled from the spec (for comparison only, claim C6): the amended
folding rule — a segment at angle `a > 30` contributes `90 - a` (and when
that is still below `-30`, i.e. `a > 120`, a further `90` is added,
giving `180 - a`); a segment at `a < -30` (with `a ≤ 30`) contributes
`a + 90`; other survivors contribute `a` itself. -/
def foldAngleSpec (a : ℚ) : ℚ :=
  if a > 30 then (if a > 120 then 180 - a else 90 - a)
  else if a < -30 then a + 90 else a

theorem foldAngle_eq_spec (a : ℚ) : foldAngle a = foldAngleSpec a := by
  simp only [foldAngle, foldAngleSpec]
  split_ifs <;> first | rfl | linarith

theorem keepAngle_eq_spec (a : ℚ) : keepAngle a = keepAngleSpec a := by
  simp only [keepAngle, keepAngleSpec]
  by_cases h0 : a = 0 <;> by_cases h90 : a = -90 <;> simp [h0, h90]

/-- Claim C6 (counterexample): a segment whose computed angle is `40°`
(greater than `30°`) contributes the folded value `90 − 40 = 50`, not
`40 − 90 = −50` as the claim states: the code's fold for `a > 30` is
`90 − a`, not `a − 90`. -/
theorem calculate_angle_fold_counterexample :
    calculate_angle (some [40]) = 50 ∧ (50 : ℚ) ≠ 40 - 90 := by
  constructor
  · norm_num [calculate_angle, survivors, keepAngle, foldAngle, List.filter]
  · norm_num

/-- Claim C6 (amended): every detected segment whose angle is exactly 0°
or −90° is discarded; every surviving angle `a > 30°` is folded to
`90 − a` (and, when that is still below −30°, i.e. `a > 120°`, a further
90° is added, giving `180 − a`); every surviving angle `a < −30°` (with
`a ≤ 30°`) is folded to `a + 90°`; the returned estimate is the
arithmetic mean of the surviving folded angles. -/
theorem calculate_angle_amended (angles : List ℚ)
    (h : angles.filter keepAngleSpec ≠ []) :
    calculate_angle (some angles)
      = ((angles.filter keepAngleSpec).map foldAngleSpec).sum
        / ((angles.filter keepAngleSpec).map foldAngleSpec).length := by
  have hfil : angles.filter keepAngle = angles.filter keepAngleSpec :=
    List.filter_congr (fun a _ => keepAngle_eq_spec a)
  have hmap : (angles.filter keepAngle).map foldAngle
      = (angles.filter keepAngleSpec).map foldAngleSpec := by
    rw [hfil]
    exact List.map_congr_left (fun a _ => foldAngle_eq_spec a)
  have hs : survivors angles = (angles.filter keepAngleSpec).map foldAngleSpec := by
    rw [survivors, hmap]
  have hlen : ((angles.filter keepAngleSpec).map foldAngleSpec).length ≠ 0 := by
    simp only [List.length_map]
    exact fun hl => h (List.length_eq_zero.mp hl)
  show (if (survivors angles).length ≠ 0 then _ else _) = _
  rw [hs, if_pos hlen]

/-- Witness for C6: the amended fold applied to the single surviving
segment at 40° gives the estimate 50°. -/
theorem calculate_angle_amended_witness :
    calculate_angle (some [40])
      = (([(40 : ℚ)].filter keepAngleSpec).map foldAngleSpec).sum
        / (([(40 : ℚ)].filter keepAngleSpec).map foldAngleSpec).length := by
  refine calculate_angle_amended [40] ?_
  norm_num [keepAngleSpec]

/-- Claim C7 (confirmed): when line detection finds no segments (the
Hough result is `None`), or every segment is discarded as axis-aligned,
the skew estimate is `0`; the bare `except` resolves the no-segment case
locally, so no error is ever propagated (the embedding is a total
function). -/
theorem calculate_angle_no_segments :
    calculate_angle none = 0 ∧
      ∀ angles : List ℚ, angles.filter keepAngle = [] →
        calculate_angle (some angles) = 0 := by
  refine ⟨rfl, fun angles hfil => ?_⟩
  show (if (survivors angles).length ≠ 0 then _ else _) = (0 : ℚ)
  rw [survivors, hfil]
  simp

/-- Witness for C7: with both segments axis-aligned (0° and −90°), every
angle is discarded and the estimate is 0. -/
theorem calculate_angle_no_segments_witness :
    calculate_angle (some [0, -90]) = 0 := by
  refine calculate_angle_no_segments.2 [0, -90] ?_
  norm_num [keepAngle, List.filter]

/-! ## ocr_tools.py: ocr_segmented_box cell geometry (claim C2) -/

/-- The estimated cell count of `ocr_segmented_box` (ocr_tools.py lines
576-580), given the x-coordinates of the contours sorted left to right:
with fewer than two contours the function returns the sentinel (`none`
here); otherwise a leftmost contour starting before column 50 is
discarded from the count as a scanning artifact. -/
def estimatedCells (contour_xs : List ℕ) : Option ℕ :=
  match contour_xs with
  | [] => none
  | [_] => none
  | x0 :: _ :: _ =>
    if x0 < 50 then some (contour_xs.length - 1) else some contour_xs.length

/-- Cell column bounds of the segmented splitter (ocr_tools.py lines
582-589): `step_length = int(length // n_boxes)` and the generator yields,
for `step` in `range(n_boxes)`, the column interval
`[step_length * step, min(step_length * (step + 1), length))`. -/
def cellBounds (length n_boxes : ℕ) : List (ℕ × ℕ) :=
  let step_length := length / n_boxes
  (List.range n_boxes).map
    (fun step => (step_length * step, min (step_length * (step + 1)) length))

/-- Claim C2 (counterexample): splitting a crop of width 141 into 7 cells
yields SEVEN sub-regions of width 20 — the last cell ends at
`min(20 * 7, 141) = 140`, so the one-pixel remainder is dropped, not
absorbed into a 21-pixel final cell as the claim states. -/
theorem cellBounds_remainder_counterexample :
    (cellBounds 141 7).map (fun p => p.2 - p.1) = [20, 20, 20, 20, 20, 20, 20] ∧
      (cellBounds 141 7).map (fun p => p.2 - p.1) ≠ [20, 20, 20, 20, 20, 20, 21] := by
  constructor <;> decide

/-- Claim C2 (amended): for every crop of width `L` divided into `n ≥ 1`
estimated cells, the cell boundaries lie at consecutive multiples of
`⌊L / n⌋` and EVERY cell, the final one included, has width exactly
`⌊L / n⌋`; the remainder `L mod n` columns at the right edge are dropped
(not absorbed by the final cell).  A crop of width 140 split into 7 cells
yields 7 sub-regions of width 20; a crop of width 141 split into 7 cells
yields seven sub-regions of width 20 with the last column unused. -/
theorem cellBounds_amended (L n : ℕ) (_hn : 0 < n) :
    cellBounds L n = (List.range n).map (fun i => ((L / n) * i, (L / n) * (i + 1))) ∧
      (cellBounds L n).map (fun p => p.2 - p.1) = List.replicate n (L / n) := by
  have hb : cellBounds L n
      = (List.range n).map (fun i => ((L / n) * i, (L / n) * (i + 1))) := by
    rw [cellBounds]
    refine List.map_congr_left (fun i hi => ?_)
    have hi' : i < n := List.mem_range.mp hi
    have hle : (L / n) * (i + 1) ≤ L := by
      calc (L / n) * (i + 1) ≤ (L / n) * n := by
            exact Nat.mul_le_mul_left _ (by omega)
        _ ≤ L := Nat.div_mul_le_self L n
    rw [min_eq_left hle]
  refine ⟨hb, ?_⟩
  rw [hb, List.map_map]
  refine List.eq_replicate_iff.mpr ⟨by simp, fun b hb' => ?_⟩
  simp only [List.mem_map, List.mem_range, Function.comp] at hb'
  obtain ⟨i, _, hbi⟩ := hb'
  subst hbi
  simp [Nat.mul_succ]

/-- Witness for C2: the amended statement at width 141 and 7 cells —
seven cells, each of width `141 / 7 = 20`. -/
theorem cellBounds_amended_witness :
    (cellBounds 141 7).map (fun p => p.2 - p.1) = List.replicate 7 (141 / 7) :=
  (cellBounds_amended 141 7 (by norm_num)).2

/-! ## ocr_tools.py: ocr_box result handling (claim C10)

The image preparation before Tesseract does not affect which string is
returned; the return value (ocr_tools.py line 451) is a function of the
engine's raw output `ocr_string`, embedded here with that raw output as
the parameter. -/

/-- Python `str.isspace` characters relevant to `str.strip` (ASCII). -/
def isPySpace (c : Char) : Bool :=
  c = ' ' ∨ c = '\t' ∨ c = '\n' ∨ c = '\r' ∨ c = '\x0b' ∨ c = '\x0c'

/-- Python `str.strip()`: remove leading and trailing whitespace. -/
def pyStrip (s : String) : String :=
  String.mk (((s.data.dropWhile isPySpace).reverse.dropWhile isPySpace).reverse)

/-- Embedding of the return expression of `ocr_box` (ocr_tools.py line
451): `ocr_string.strip() if (ocr_string != '' and ocr_string != 'N/A')
else 'None'`, as a function of the engine's raw output. -/
def ocr_box_result (ocr_string : String) : String :=
  if ocr_string ≠ "" ∧ ocr_string ≠ "N/A" then pyStrip ocr_string else "None"

/-- Claim C10 (counterexample): the raw engine output `" "` (a single
space — neither empty nor `N/A`) is stripped to the EMPTY string, which
is returned to the caller; so an empty string can reach callers,
contradicting the claim's final clause. -/
theorem ocr_box_result_empty_counterexample :
    ocr_box_result " " = "" ∧ (" " : String) ≠ "" ∧ (" " : String) ≠ "N/A" ∧
      ("" : String) ≠ "None" := by
  refine ⟨?_, ?_, ?_, ?_⟩ <;> decide

/-- Claim C10 (amended): the single-box OCR wrapper returns the sentinel
`None` when the engine's raw output is the empty string or the literal
`N/A`; for every other raw output it returns that output stripped of
surrounding whitespace — and this stripped value can itself be the empty
string (whenever the raw output is nonempty whitespace), so an empty
string CAN be returned to callers. -/
theorem ocr_box_result_amended (s : String) :
    (s = "" ∨ s = "N/A" → ocr_box_result s = "None") ∧
      (s ≠ "" → s ≠ "N/A" → ocr_box_result s = pyStrip s) := by
  constructor
  · intro h
    rw [ocr_box_result, if_neg (by tauto)]
  · intro h1 h2
    rw [ocr_box_result, if_pos ⟨h1, h2⟩]

/-- Witness for C10: the sentinel case at `N/A` and the stripping case at
`" ab "`. -/
theorem ocr_box_result_amended_witness :
    ocr_box_result "N/A" = "None" ∧ ocr_box_result " ab " = pyStrip " ab " :=
  ⟨(ocr_box_result_amended "N/A").1 (Or.inr rfl),
    (ocr_box_result_amended " ab ").2 (by decide) (by decide)⟩

/-! ## ocr_tools.py: detect_boxes and get_boxes_info (claims C4, C5)

The pixel mathematics (OpenCV morphology, Canny, skeletonize, rotation)
is an external collaborator and is abstracted into a structure of
operation parameters; the control flow, kernel selection, recursion,
variable binding and exception behaviour of `detect_boxes`
(ocr_tools.py lines 115-211) are embedded exactly.  Python's unbounded
recursion is given an explicit fuel (exhaustion models
`RecursionError`); the source recurses at most at depth 1, which claim
C5 establishes as fuel-independence beyond fuel 1. -/

/-- The dilation kernels selectable in `detect_boxes`
(ocr_tools.py lines 164-176). -/
inductive Kern where
  | ones10x1
  | ones1x2
  | ones2x1
  | ones1x10
  deriving Repr, DecidableEq

/-- Abstract image-processing primitives consumed by `detect_boxes`. -/
structure CVOps (Img : Type) where
  mkBoxMask : Img → Kern × Kern → ℕ → ℕ → Img
  hough : Img → Option (List ℚ)
  rotate : Img → ℚ → Img
  cannyOf : Img → ℕ → Img
  skelOf : Img → ℕ → Img

/-- Kernel selection of ocr_tools.py lines 164-176, as the pair
`(vertical_dilate_kernel, horizontal_dilate_kernel)`. -/
def selectKernels (thin_lines : Bool) (thin_alignment : String) : Kern × Kern :=
  if thin_lines then
    if thin_alignment = "vertical" then (Kern.ones10x1, Kern.ones1x2)
    else (Kern.ones2x1, Kern.ones1x10)
  else (Kern.ones10x1, Kern.ones1x10)

/-- The `canny`/`skel` tail of `detect_boxes` (ocr_tools.py lines
197-206): the canny branch disables the skel branch; when neither runs,
the local `boxes_thinned` stays unbound (`none`). -/
def postMask {Img : Type} (ops : CVOps Img) (boxes : Img) (skel canny : Bool)
    (thresh_value : ℕ) : Option Img :=
  if canny then some (ops.cannyOf boxes thresh_value)
  else if skel then some (ops.skelOf boxes thresh_value)
  else none

/-- The return statements of `detect_boxes` (ocr_tools.py lines
208-211): `tag` is the bound-or-unbound `skew_angle`, `o` the
bound-or-unbound `boxes_thinned`; an unbound `boxes_thinned` raises
`NameError` from the second `return` as well. -/
def postReturn {Img : Type} (tag : Option ℚ) (o : Option Img) :
    Except PyErr (Option ℚ × Img) :=
  match o with
  | some bt => .ok (tag, bt)
  | none => .error .nameError

/-- Binding of the recursive call’s result at ocr_tools.py line 193,
combined with the tuple return of line 209: an exception from the re-run
propagates, and otherwise the mask it produced is returned together with
the outer `skew_angle`. -/
def reRunReturn {Img : Type} (a : ℚ) (r : Except PyErr (Option ℚ × Img)) :
    Except PyErr (Option ℚ × Img) :=
  match r with
  | .error e => .error e
  | .ok (_, bt) => .ok (some a, bt)

/-- Embedding of `detect_boxes` (ocr_tools.py lines 115-211).
The argument order after fuel follows the source: image, align,
thin_lines, thin_alignment, skel, canny, thresh_value, iteration counts.
Return value: `some angle` in the first component models the
`(skew_angle, boxes_thinned)` tuple return (align was true), `none`
models the bare `boxes_thinned` return; a never-bound `boxes_thinned`
makes both `return` statements raise `NameError` (lines 208-211).
The recursive call (line 193) passes the rotated image, `align=False`,
the caller's `skel`/`canny`/iteration values — and does NOT forward
`thresh_value`, so the re-run uses the default `80`. -/
def detect_boxes {Img : Type} (ops : CVOps Img) (fuel : ℕ) (processed_inv : Img)
    (align thin_lines : Bool) (thin_alignment : String) (skel canny : Bool)
    (thresh_value vertical_iterations horizontal_iterations : ℕ) :
    Except PyErr (Option ℚ × Img) :=
  if thin_lines = true ∧ thin_alignment ≠ "vertical" ∧ thin_alignment ≠ "horizontal" then
    .error .assertionError
  else
    let boxes := ops.mkBoxMask processed_inv (selectKernels thin_lines thin_alignment)
      vertical_iterations horizontal_iterations
    if align then
      let skew_angle := calculate_angle (ops.hough boxes)
      if skew_angle > 15 / 100 ∨ skew_angle < -(15 / 100) then
        match fuel with
        | 0 => .error .recursionError
        | fuel' + 1 =>
          reRunReturn skew_angle
            (detect_boxes ops fuel' (ops.rotate processed_inv skew_angle)
              false thin_lines thin_alignment skel canny 80
              vertical_iterations horizontal_iterations)
      else
        postReturn (some skew_angle) (postMask ops boxes skel canny thresh_value)
    else
      postReturn none (postMask ops boxes skel canny thresh_value)

/-- A bounding rectangle `(x, y, w, h)` of a contour, as produced by
`cv2.boundingRect`. -/
structure Rect where
  x : ℤ
  y : ℤ
  w : ℤ
  h : ℤ
  deriving Repr, DecidableEq

/-- Embedding of `get_boxes_info` (ocr_tools.py lines 213-251), given the
bounding rectangles of the detected contours: each contour contributes
the pair `(area, coordinates)` with `area = w * h`; no contours yield the
empty list, never an error. -/
def get_boxes_info (rects : List Rect) : List (ℤ × Rect) :=
  rects.map (fun r => (r.w * r.h, r))

/-- A trivial concrete instantiation of the abstract image operations,
used to evaluate the embedded `detect_boxes` at concrete arguments. -/
def unitOps : CVOps Unit where
  mkBoxMask := fun _ _ _ _ => ()
  hough := fun _ => none
  rotate := fun _ _ => ()
  cannyOf := fun _ _ => ()
  skelOf := fun _ _ => ()

/-! ### Unfolding lemmas for detect_boxes -/

theorem detect_boxes_assertError {Img : Type} (ops : CVOps Img) (f : ℕ) (img : Img)
    (al tl : Bool) (ta : String) (sk cn : Bool) (tv vit hit : ℕ)
    (h : tl = true ∧ ta ≠ "vertical" ∧ ta ≠ "horizontal") :
    detect_boxes ops f img al tl ta sk cn tv vit hit = .error .assertionError := by
  rw [detect_boxes, if_pos h]

theorem detect_boxes_noalign_eq {Img : Type} (ops : CVOps Img) (f : ℕ) (img : Img)
    (tl : Bool) (ta : String) (sk cn : Bool) (tv vit hit : ℕ)
    (h : ¬(tl = true ∧ ta ≠ "vertical" ∧ ta ≠ "horizontal")) :
    detect_boxes ops f img false tl ta sk cn tv vit hit
      = postReturn none
          (postMask ops (ops.mkBoxMask img (selectKernels tl ta) vit hit) sk cn tv) := by
  rw [detect_boxes, if_neg h]
  rfl

theorem detect_boxes_align_succ {Img : Type} (ops : CVOps Img) (f' : ℕ) (img : Img)
    (tl : Bool) (ta : String) (sk cn : Bool) (tv vit hit : ℕ)
    (h : ¬(tl = true ∧ ta ≠ "vertical" ∧ ta ≠ "horizontal")) :
    detect_boxes ops (f' + 1) img true tl ta sk cn tv vit hit
      = (if calculate_angle (ops.hough (ops.mkBoxMask img (selectKernels tl ta) vit hit))
              > 15 / 100
            ∨ calculate_angle (ops.hough (ops.mkBoxMask img (selectKernels tl ta) vit hit))
              < -(15 / 100) then
          reRunReturn
            (calculate_angle (ops.hough (ops.mkBoxMask img (selectKernels tl ta) vit hit)))
            (detect_boxes ops f'
              (ops.rotate img
                (calculate_angle (ops.hough (ops.mkBoxMask img (selectKernels tl ta) vit hit))))
              false tl ta sk cn 80 vit hit)
        else
          postReturn
            (some (calculate_angle
              (ops.hough (ops.mkBoxMask img (selectKernels tl ta) vit hit))))
            (postMask ops (ops.mkBoxMask img (selectKernels tl ta) vit hit) sk cn tv)) := by
  rw [detect_boxes, if_neg h]
  rfl

theorem postMask_isSome {Img : Type} (ops : CVOps Img) (bx : Img) (sk cn : Bool)
    (t : ℕ) : (postMask ops bx sk cn t).isSome = (cn || sk) := by
  rw [postMask]
  cases cn <;> cases sk <;> simp

theorem isOkE_postReturn {Img : Type} (tag : Option ℚ) (o : Option Img) :
    isOkE (postReturn tag o) = o.isSome := by
  cases o <;> rfl

/-- Claim C4 (counterexample): `detect_boxes` CAN raise.  With
`thin_lines=True` and the default `thin_alignment='None'` the `assert`
at ocr_tools.py line 165 raises `AssertionError`; and with
`align=False, skel=False, canny=False` the local `boxes_thinned` is
never assigned, so the final `return` raises `NameError` (the bare
`except` at line 210 re-raises it from `return boxes_thinned`). -/
theorem detect_boxes_raises_counterexample :
    detect_boxes unitOps 5 () true true "None" true false 80 5 3
        = .error .assertionError ∧
      detect_boxes unitOps 5 () false true "vertical" false false 80 5 3
        = .error .nameError := by
  exact ⟨rfl, rfl⟩

/-- Claim C4 (amended): the Line/Box Detector returns normally exactly
when its parameters are coherent — whenever `thin_lines` is set,
`thin_alignment` must be `vertical` or `horizontal` (otherwise the
`assert` raises), and at least one of `skel`/`canny` must be set
(otherwise the result variable is never bound and the return raises
`NameError`); for every input image and every abstract instantiation of
the pixel operations no other failure is possible.  Contour extraction
(`get_boxes_info`) never raises: a page with no detected contours yields
the empty box list. -/
theorem detect_boxes_amended {Img : Type} (ops : CVOps Img) (fuel : ℕ) (img : Img)
    (align thin_lines : Bool) (ta : String) (skel canny : Bool) (tv vit hit : ℕ)
    (hfuel : 1 ≤ fuel) :
    (isOkE (detect_boxes ops fuel img align thin_lines ta skel canny tv vit hit) = true
      ↔ ((thin_lines = true → ta = "vertical" ∨ ta = "horizontal")
          ∧ (skel = true ∨ canny = true)))
    ∧ get_boxes_info [] = [] := by
  refine ⟨?_, rfl⟩
  by_cases hassert : thin_lines = true ∧ ta ≠ "vertical" ∧ ta ≠ "horizontal"
  · rw [detect_boxes_assertError _ _ _ _ _ _ _ _ _ _ _ hassert]
    simp only [isOkE]
    constructor
    · intro h; exact absurd h (by simp)
    · intro h
      exact absurd (h.1 hassert.1) (by tauto)
  · have hta : thin_lines = true → ta = "vertical" ∨ ta = "horizontal" := by tauto
    have hsc : ∀ bx t, ((postMask ops bx skel canny t).isSome = true
        ↔ (skel = true ∨ canny = true)) := by
      intro bx t
      rw [postMask_isSome]
      cases skel <;> cases canny <;> simp
    have hgoal : ∀ bx t tag, (isOkE (postReturn tag (postMask ops bx skel canny t)) = true
        ↔ ((thin_lines = true → ta = "vertical" ∨ ta = "horizontal")
            ∧ (skel = true ∨ canny = true))) := by
      intro bx t tag
      rw [isOkE_postReturn]
      exact (hsc bx t).trans (by tauto)
    cases align with
    | false =>
      rw [detect_boxes_noalign_eq _ _ _ _ _ _ _ _ _ _ hassert]
      exact hgoal _ _ _
    | true =>
      obtain ⟨f', rfl⟩ : ∃ f', fuel = f' + 1 := ⟨fuel - 1, by omega⟩
      rw [detect_boxes_align_succ _ _ _ _ _ _ _ _ _ _ hassert]
      set a := calculate_angle
        (ops.hough (ops.mkBoxMask img (selectKernels thin_lines ta) vit hit)) with ha
      by_cases htol : a > 15 / 100 ∨ a < -(15 / 100)
      · rw [if_pos htol,
          detect_boxes_noalign_eq _ _ _ _ _ _ _ _ _ _ hassert]
        cases hp : postMask ops (ops.mkBoxMask (ops.rotate img a)
            (selectKernels thin_lines ta) vit hit) skel canny 80 with
        | none =>
          have h1 := hsc (ops.mkBoxMask (ops.rotate img a)
            (selectKernels thin_lines ta) vit hit) 80
          rw [hp] at h1
          simp only [Option.isSome_none, Bool.false_eq_true, false_iff] at h1
          show isOkE (reRunReturn a (postReturn none none)) = true ↔ _
          simp only [postReturn, reRunReturn, isOkE]
          constructor
          · intro h; exact absurd h (by simp)
          · intro h; exact absurd h.2 h1
        | some bt =>
          have h1 := hsc (ops.mkBoxMask (ops.rotate img a)
            (selectKernels thin_lines ta) vit hit) 80
          rw [hp] at h1
          simp only [Option.isSome_some, true_iff] at h1
          show isOkE (reRunReturn a (postReturn none (some bt))) = true ↔ _
          simp only [postReturn, reRunReturn, isOkE, true_iff]
          exact ⟨hta, h1⟩
      · rw [if_neg htol]
        exact hgoal _ _ _

/-- Witness for C4: with valid parameters (no thin-line mode, `skel`
set), the detector returns normally at a concrete instantiation. -/
theorem detect_boxes_amended_witness :
    isOkE (detect_boxes unitOps 1 () true false "None" true false 80 5 3) = true :=
  ((detect_boxes_amended unitOps 1 () true false "None" true false 80 5 3
      (le_refl 1)).1).mpr (by simp)

/-- Claim C5 (confirmed): when alignment is enabled, skew correction
happens at most once.  (1) One unit of recursion budget always suffices:
the result with any fuel `≥ 1` equals the result with fuel 1, so the
recursion depth is at most 1.  (2) If the skew estimate exceeds the
0.15° tolerance in absolute value, the image is rotated by that angle
and the detector is re-run EXACTLY once with alignment disabled — the
re-run needs no recursion budget at all.  (3) If the estimate lies
within `[-0.15, 0.15]`, no rotation is performed and the mask built from
the ORIGINAL image is used. -/
theorem detect_boxes_single_correction {Img : Type} (ops : CVOps Img) (fuel : ℕ)
    (img : Img) (thin_lines : Bool) (ta : String) (skel canny : Bool)
    (tv vit hit : ℕ) (hfuel : 1 ≤ fuel) :
    (detect_boxes ops fuel img true thin_lines ta skel canny tv vit hit
        = detect_boxes ops 1 img true thin_lines ta skel canny tv vit hit)
    ∧ ((calculate_angle (ops.hough (ops.mkBoxMask img (selectKernels thin_lines ta) vit hit))
            > 15 / 100
          ∨ calculate_angle (ops.hough (ops.mkBoxMask img (selectKernels thin_lines ta) vit hit))
            < -(15 / 100)) →
        detect_boxes ops fuel img true thin_lines ta skel canny tv vit hit
          = reRunReturn
              (calculate_angle
                (ops.hough (ops.mkBoxMask img (selectKernels thin_lines ta) vit hit)))
              (detect_boxes ops 0
                (ops.rotate img (calculate_angle
                  (ops.hough (ops.mkBoxMask img (selectKernels thin_lines ta) vit hit))))
                false thin_lines ta skel canny 80 vit hit))
    ∧ (¬(calculate_angle (ops.hough (ops.mkBoxMask img (selectKernels thin_lines ta) vit hit))
            > 15 / 100
          ∨ calculate_angle (ops.hough (ops.mkBoxMask img (selectKernels thin_lines ta) vit hit))
            < -(15 / 100)) →
        ¬(thin_lines = true ∧ ta ≠ "vertical" ∧ ta ≠ "horizontal") →
        detect_boxes ops fuel img true thin_lines ta skel canny tv vit hit
          = postReturn
              (some (calculate_angle
                (ops.hough (ops.mkBoxMask img (selectKernels thin_lines ta) vit hit))))
              (postMask ops (ops.mkBoxMask img (selectKernels thin_lines ta) vit hit)
                skel canny tv)) := by
  obtain ⟨f', rfl⟩ : ∃ f', fuel = f' + 1 := ⟨fuel - 1, by omega⟩
  set a := calculate_angle
    (ops.hough (ops.mkBoxMask img (selectKernels thin_lines ta) vit hit)) with ha
  refine ⟨?_, ?_, ?_⟩
  · by_cases hassert : thin_lines = true ∧ ta ≠ "vertical" ∧ ta ≠ "horizontal"
    · rw [detect_boxes_assertError _ _ _ _ _ _ _ _ _ _ _ hassert,
        detect_boxes_assertError _ _ _ _ _ _ _ _ _ _ _ hassert]
    · rw [detect_boxes_align_succ _ f' _ _ _ _ _ _ _ _ hassert,
        show (1 : ℕ) = 0 + 1 from rfl,
        detect_boxes_align_succ _ 0 _ _ _ _ _ _ _ _ hassert]
      by_cases htol : a > 15 / 100 ∨ a < -(15 / 100)
      · rw [if_pos htol, if_pos htol,
          detect_boxes_noalign_eq _ f' _ _ _ _ _ _ _ _ hassert,
          detect_boxes_noalign_eq _ 0 _ _ _ _ _ _ _ _ hassert]
      · rw [if_neg htol, if_neg htol]
  · intro htol
    by_cases hassert : thin_lines = true ∧ ta ≠ "vertical" ∧ ta ≠ "horizontal"
    · rw [detect_boxes_assertError _ _ _ _ _ _ _ _ _ _ _ hassert,
        detect_boxes_assertError _ _ _ _ _ _ _ _ _ _ _ hassert]
      rfl
    · rw [detect_boxes_align_succ _ f' _ _ _ _ _ _ _ _ hassert, if_pos htol,
        detect_boxes_noalign_eq _ f' _ _ _ _ _ _ _ _ hassert,
        detect_boxes_noalign_eq _ 0 _ _ _ _ _ _ _ _ hassert]
  · intro htol hassert
    rw [detect_boxes_align_succ _ f' _ _ _ _ _ _ _ _ hassert, if_neg htol]

/-- Witness for C5: at a concrete instantiation with fuel 5, the result
equals the fuel-1 result (depth at most 1). -/
theorem detect_boxes_single_correction_witness :
    detect_boxes unitOps 5 () true false "None" true false 80 5 3
      = detect_boxes unitOps 1 () true false "None" true false 80 5 3 :=
  (detect_boxes_single_correction unitOps 5 () false "None" true false 80 5 3
    (by norm_num)).1

/-! ## document_layouts.py: AnnualReturn page box binding (claim C1)

The page constructors slice and index the detected box list
(`boxes_info`, a list of `(area, [x, y, w, h])` pairs) at fixed
positions.  The OCR and normalization of the selected boxes cannot fail
structurally, so the box-selection logic — every sort, slice, index
access and tuple unpacking, in source order — decides whether a page
record is constructed or an exception propagates.  Python semantics:
slices never raise, single-index access raises `IndexError` when out of
range, unpacking a list of the wrong length raises `ValueError`;
`sorted` is stable, which the stable insertion sort mirrors. -/

/-- A detected box: the `(area, [x, y, w, h])` pair of `boxes_info`. -/
structure Box where
  area : ℤ
  x : ℤ
  y : ℤ
  w : ℤ
  h : ℤ
  deriving Repr, DecidableEq

/-- `sorted(boxes_info, key=lambda box: box[0], reverse=True)` — stable
descending sort by area. -/
def sortDescArea (l : List Box) : List Box :=
  l.insertionSort (fun a b => b.area ≤ a.area)

/-- `sorted(..., key=lambda box: box[1][1])` — stable ascending sort by
vertical position. -/
def sortByY (l : List Box) : List Box :=
  l.insertionSort (fun a b => a.y ≤ b.y)

/-- `sorted(..., key=lambda box: box[1][0])` — stable ascending sort by
horizontal position. -/
def sortByX (l : List Box) : List Box :=
  l.insertionSort (fun a b => a.x ≤ b.x)

/-- Python single-index list access: `l[i]` raises `IndexError` when `i`
is out of range (no negative indices occur in the embedded code). -/
def pyGet {α : Type} (l : List α) (i : ℕ) : Except PyErr α :=
  if h : i < l.length then .ok (l.get ⟨i, h⟩) else .error .indexError

/-- Python 2-tuple unpacking `a, b = l`: raises `ValueError` unless the
list has exactly two elements. -/
def unpack2 {α : Type} (l : List α) : Except PyErr (α × α) :=
  match l with
  | [a, b] => .ok (a, b)
  | _ => .error .valueError

/-- The boxes bound by `AnnualReturn.PageOne.__init__`. -/
structure PageOneBoxes where
  presentors_reference_box : Box
  company_name_box : Box
  address_box : Box
  company_number_box : Box
  date_of_return_box : Box
  deriving Repr, DecidableEq

/-- Embedding of the box-selection logic of `AnnualReturn.PageOne.__init__`
(document_layouts.py lines 140-147): take the 8 largest boxes; rank 0 is
the presentors' reference block; ranks 1-3 sorted by vertical position
give the name and address boxes; ranks 4 onward sorted by vertical
position give the small boxes, whose first two are unpacked into the
company-number and date-of-return boxes. -/
def pageOneSelect (boxes_info : List Box) : Except PyErr PageOneBoxes := do
  let boxes_of_interest := (sortDescArea boxes_info).take 8
  let presentors_reference_box ← pyGet boxes_of_interest 0
  let large_boxes := sortByY ((boxes_of_interest.drop 1).take 3)
  let small_boxes := sortByY (boxes_of_interest.drop 4)
  let company_name_box ← pyGet large_boxes 0
  let address_box ← pyGet large_boxes 2
  let (company_number_box, date_of_return_box) ← unpack2 (small_boxes.take 2)
  return ⟨presentors_reference_box, company_name_box, address_box,
    company_number_box, date_of_return_box⟩

/-- The boxes bound by `AnnualReturn.PageThree.__init__`. -/
structure PageThreeBoxes where
  name_boxes : List Box
  address_boxes : List Box
  email_box : Box
  hkid_box_left : Box
  hkid_box_right : Box
  corporate_company_secretary_box : Box
  corporate_company_secretary_address_boxes : List Box
  corporate_company_secretary_email_box : Box
  corporate_company_secretary_crNo_box : Box
  deriving Repr, DecidableEq

/-- Embedding of the box-selection logic of
`AnnualReturn.PageThree.__init__` (document_layouts.py lines 330-343):
take the 25 largest boxes, re-sort by vertical position, slice the named
groups and index ranks 12, 18, 23 and 24; the two HKID boxes (ranks
13-14, re-sorted by horizontal position) are indexed individually when
building the OCR calls (lines 342-343). -/
def pageThreeSelect (boxes_info : List Box) : Except PyErr PageThreeBoxes := do
  let boxes_of_interest := sortByY ((sortDescArea boxes_info).take 25)
  let name_boxes := (boxes_of_interest.drop 2).take 2
  let address_boxes := (boxes_of_interest.drop 8).take 3
  let email_box ← pyGet boxes_of_interest 12
  let hkid_boxes := sortByX ((boxes_of_interest.drop 13).take 2)
  let corporate_company_secretary_box ← pyGet boxes_of_interest 18
  let corporate_company_secretary_address_boxes := (boxes_of_interest.drop 19).take 3
  let corporate_company_secretary_email_box ← pyGet boxes_of_interest 23
  let corporate_company_secretary_crNo_box ← pyGet boxes_of_interest 24
  let hkid_box_left ← pyGet hkid_boxes 0
  let hkid_box_right ← pyGet hkid_boxes 1
  return ⟨name_boxes, address_boxes, email_box, hkid_box_left, hkid_box_right,
    corporate_company_secretary_box, corporate_company_secretary_address_boxes,
    corporate_company_secretary_email_box, corporate_company_secretary_crNo_box⟩

/-- Embedding of the box selection of `AnnualReturn.PageEight.__init__`
(document_layouts.py line 508): the single largest box. -/
def pageEightSelect (boxes_info : List Box) : Except PyErr Box :=
  pyGet (sortDescArea boxes_info) 0

/-! ### Helper lemmas for the page selectors -/

theorem isOkE_bind {α β : Type} (e : Except PyErr α) (f : α → Except PyErr β) :
    isOkE (e >>= f) = true ↔ ∃ x, e = .ok x ∧ isOkE (f x) = true := by
  cases e with
  | ok x =>
    show isOkE (f x) = true ↔ _
    constructor
    · intro h; exact ⟨x, rfl, h⟩
    · rintro ⟨y, hy, h⟩
      cases hy
      exact h
  | error e =>
    show isOkE (Except.error e) = true ↔ _
    simp [isOkE]

theorem pyGet_ok_lt {α : Type} {l : List α} {i : ℕ} {x : α}
    (h : pyGet l i = .ok x) : i < l.length := by
  by_contra hn
  rw [pyGet, dif_neg hn] at h
  exact absurd h (by simp)

theorem pyGet_ok {α : Type} (l : List α) (i : ℕ) (h : i < l.length) :
    pyGet l i = .ok (l.get ⟨i, h⟩) := dif_pos h

theorem isOkE_pyGet {α : Type} (l : List α) (i : ℕ) :
    isOkE (pyGet l i) = true ↔ i < l.length := by
  constructor
  · intro h
    by_contra hn
    rw [pyGet, dif_neg hn] at h
    exact absurd h (by simp [isOkE])
  · intro h
    rw [pyGet_ok l i h]
    rfl

theorem unpack2_ok_len {α : Type} {l : List α} {p : α × α}
    (h : unpack2 l = .ok p) : l.length = 2 := by
  cases l with
  | nil => exact absurd h (by simp [unpack2])
  | cons a t =>
    cases t with
    | nil => exact absurd h (by simp [unpack2])
    | cons b u =>
      cases u with
      | nil => rfl
      | cons c v => exact absurd h (by simp [unpack2])

theorem unpack2_len2 {α : Type} (l : List α) (h : l.length = 2) :
    ∃ a b, unpack2 l = .ok (a, b) := by
  cases l with
  | nil => simp at h
  | cons a t =>
    cases t with
    | nil => simp at h
    | cons b u =>
      cases u with
      | nil => exact ⟨a, b, rfl⟩
      | cons c v => simp at h

theorem ok_bind {α β : Type} (x : α) (f : α → Except PyErr β) :
    (Except.ok x >>= f : Except PyErr β) = f x := rfl

theorem pageEightSelect_ok_iff (bs : List Box) :
    isOkE (pageEightSelect bs) = true ↔ 1 ≤ bs.length := by
  rw [pageEightSelect, isOkE_pyGet]
  simp only [sortDescArea, List.length_insertionSort]
  omega

theorem pageOneSelect_ok_iff (bs : List Box) :
    isOkE (pageOneSelect bs) = true ↔ 6 ≤ bs.length := by
  have hboi : ((sortDescArea bs).take 8).length = min 8 bs.length := by
    simp [sortDescArea, List.length_insertionSort]
  constructor
  · intro h
    simp only [pageOneSelect] at h
    obtain ⟨p, hp, h⟩ := (isOkE_bind _ _).mp h
    obtain ⟨cn, hcn, h⟩ := (isOkE_bind _ _).mp h
    obtain ⟨ad, had, h⟩ := (isOkE_bind _ _).mp h
    obtain ⟨pr, hpr, h⟩ := (isOkE_bind _ _).mp h
    have h2 := unpack2_ok_len hpr
    have h3 : ((sortByY (((sortDescArea bs).take 8).drop 4)).take 2).length
        = min 2 (min 8 bs.length - 4) := by
      simp [sortByY, List.length_insertionSort, hboi]
    rw [h2] at h3
    omega
  · intro h
    simp only [pageOneSelect]
    have h0 : 0 < ((sortDescArea bs).take 8).length := by omega
    rw [pyGet_ok _ 0 h0, ok_bind]
    have hl : (sortByY ((((sortDescArea bs).take 8).drop 1).take 3)).length = 3 := by
      simp [sortByY, List.length_insertionSort, hboi]
      omega
    have hl0 : 0 < (sortByY ((((sortDescArea bs).take 8).drop 1).take 3)).length := by
      omega
    have hl2 : 2 < (sortByY ((((sortDescArea bs).take 8).drop 1).take 3)).length := by
      omega
    rw [pyGet_ok _ 0 hl0, ok_bind, pyGet_ok _ 2 hl2, ok_bind]
    have hsm : ((sortByY (((sortDescArea bs).take 8).drop 4)).take 2).length = 2 := by
      simp [sortByY, List.length_insertionSort, hboi]
      omega
    obtain ⟨a, b, hab⟩ := unpack2_len2 _ hsm
    rw [hab, ok_bind]
    rfl

theorem pageThreeSelect_ok_iff (bs : List Box) :
    isOkE (pageThreeSelect bs) = true ↔ 25 ≤ bs.length := by
  have hboi : (sortByY ((sortDescArea bs).take 25)).length = min 25 bs.length := by
    simp [sortByY, sortDescArea, List.length_insertionSort]
  constructor
  · intro h
    simp only [pageThreeSelect] at h
    obtain ⟨e1, he1, h⟩ := (isOkE_bind _ _).mp h
    obtain ⟨e2, he2, h⟩ := (isOkE_bind _ _).mp h
    obtain ⟨e3, he3, h⟩ := (isOkE_bind _ _).mp h
    obtain ⟨e4, he4, h⟩ := (isOkE_bind _ _).mp h
    have h24 := pyGet_ok_lt he4
    rw [hboi] at h24
    omega
  · intro h
    simp only [pageThreeSelect]
    have h12 : 12 < (sortByY ((sortDescArea bs).take 25)).length := by
      rw [hboi]; omega
    have h18 : 18 < (sortByY ((sortDescArea bs).take 25)).length := by
      rw [hboi]; omega
    have h23 : 23 < (sortByY ((sortDescArea bs).take 25)).length := by
      rw [hboi]; omega
    have h24 : 24 < (sortByY ((sortDescArea bs).take 25)).length := by
      rw [hboi]; omega
    have hhk : (sortByX (((sortByY ((sortDescArea bs).take 25)).drop 13).take 2)).length
        = 2 := by
      simp [sortByX, List.length_insertionSort, hboi]
      omega
    have hk0 :
        0 < (sortByX (((sortByY ((sortDescArea bs).take 25)).drop 13).take 2)).length := by
      rw [hhk]; omega
    have hk1 :
        1 < (sortByX (((sortByY ((sortDescArea bs).take 25)).drop 13).take 2)).length := by
      rw [hhk]; omega
    rw [pyGet_ok _ 12 h12, ok_bind, pyGet_ok _ 18 h18, ok_bind,
      pyGet_ok _ 23 h23, ok_bind, pyGet_ok _ 24 h24, ok_bind,
      pyGet_ok _ 0 hk0, ok_bind, pyGet_ok _ 1 hk1, ok_bind]
    rfl

/-- A detector output of exactly 7 boxes (areas descending, distinct
positions), used to exercise the page-1 selector below its claimed
8-box requirement. -/
def sevenDetectedBoxes : List Box :=
  [⟨70, 0, 0, 10, 7⟩, ⟨60, 0, 10, 10, 6⟩, ⟨50, 0, 20, 10, 5⟩, ⟨40, 0, 30, 10, 4⟩,
    ⟨30, 0, 40, 10, 3⟩, ⟨20, 0, 50, 10, 2⟩, ⟨10, 0, 60, 10, 1⟩]

/-- Claim C1 (counterexample): a page-1 box list of only SEVEN boxes —
fewer than the 8 the claim says are required — is accepted: the page-1
constructor's index accesses (rank 0, ranks 1-3 for the large boxes with
index 2, and the two-way unpacking of the first two small boxes) all
succeed, and a page record is silently produced with the box roles
shifted; no exception is raised.  (The rank-8-requiring accesses for the
from/to-date boxes are commented out in document_layouts.py line 148.) -/
theorem pageOne_seven_boxes_counterexample :
    sevenDetectedBoxes.length = 7 ∧
      isOkE (pageOneSelect sevenDetectedBoxes) = true := by
  constructor <;> decide

/-- Claim C1 (amended): the page constructors raise on short box lists at
these exact thresholds — page 3 raises (IndexError) if and only if fewer
than 25 boxes are detected; page 8 raises if and only if no boxes are
detected; but page 1 raises (IndexError/ValueError) if and only if fewer
than SIX boxes are detected — not eight: with 6 or 7 boxes a page-1
record is still produced (with box roles silently shifted).  With enough
boxes each selector returns normally, so within these thresholds the
failure propagates and no partial record is produced. -/
theorem page_box_requirements (bs : List Box) :
    (isOkE (pageThreeSelect bs) = true ↔ 25 ≤ bs.length) ∧
      (isOkE (pageOneSelect bs) = true ↔ 6 ≤ bs.length) ∧
      (isOkE (pageEightSelect bs) = true ↔ 1 ≤ bs.length) :=
  ⟨pageThreeSelect_ok_iff bs, pageOneSelect_ok_iff bs, pageEightSelect_ok_iff bs⟩

/-- Witness for C1: the empty detector output makes every page selector
raise, by the amended theorem at the concrete input `[]`. -/
theorem page_box_requirements_witness :
    isOkE (pageThreeSelect []) ≠ true ∧ isOkE (pageOneSelect []) ≠ true ∧
      isOkE (pageEightSelect []) ≠ true :=
  ⟨fun h => by simpa using (page_box_requirements []).1.mp h,
    fun h => by simpa using (page_box_requirements []).2.1.mp h,
    fun h => by simpa using (page_box_requirements []).2.2.mp h⟩

end IcrisOcr
